import Mathlib

/-!
Shallow embedding of `src/server/boards/utils.ts` (boba-backend).

The file embeds the two exported functions of that module:

* `getMetadataDelta` — computes a structured delta between an old and a new
  board-metadata snapshot (scalar fields, free-text description sections,
  category-filter sections with nested case-insensitive category diffs).
  The TypeScript source dereferences `oldMetadata.settings!` and
  `newMetadata.settings!` with non-null assertions; a missing `settings`
  object therefore throws at runtime.  The embedding models this by
  returning `Option`: `none` stands for the thrown `TypeError`.

* `getBoardMetadataByExternalId` — a read-through-cache wrapper around the
  storage fetch and the response-shaping collaborators.  The collaborators
  (`cache`, `getBoardByExternalId` query, `processBoardsSummary`,
  `processBoardMetadata`, `fast-json-stable-stringify`, `JSON.parse`) live
  outside this module and are modelled as an abstract environment; the
  function is embedded as a pure function that also returns the trace of
  cache operations it performs.
-/

/-- `DbBoardTextDescription` (fields as used by the module's return type):
a free-text description section of a board. -/
structure DbBoardTextDescription where
  id : String
  index : Int
  title : String
  description : Option String
deriving Repr, DecidableEq

/-- `DbBoardCategoryDescription`: a category-filter description section of a
board, carrying a list of category strings. -/
structure DbBoardCategoryDescription where
  id : String
  index : Int
  title : String
  description : Option String
  categories : List String
deriving Repr, DecidableEq

/-- A board description is a discriminated union on its `type` field:
`"text"` or `"category_filter"`. -/
inductive DbBoardDescription where
  | text (t : DbBoardTextDescription)
  | categoryFilter (c : DbBoardCategoryDescription)
deriving Repr, DecidableEq

/-- The `settings` object of a board (only `accentColor` is used here). -/
structure BoardSettings where
  accentColor : Option String
deriving Repr, DecidableEq

/-- `Partial<BoardByExternalId>`: every field the module reads may be
absent (`none` models `undefined`). -/
structure BoardByExternalId where
  tagline : Option String
  settings : Option BoardSettings
  descriptions : Option (List DbBoardDescription)
deriving Repr, DecidableEq

/-- `oldMetadata.descriptions?.filter((desc): desc is DbBoardTextDescription
=> desc.type == "text") || []`. -/
def filterTexts (descriptions : Option (List DbBoardDescription)) :
    List DbBoardTextDescription :=
  (descriptions.getD []).filterMap fun desc =>
    match desc with
    | .text t => some t
    | .categoryFilter _ => none

/-- `descriptions?.filter((desc): desc is DbBoardCategoryDescription =>
desc.type == "category_filter") || []`. -/
def filterCategoryFilters (descriptions : Option (List DbBoardDescription)) :
    List DbBoardCategoryDescription :=
  (descriptions.getD []).filterMap fun desc =>
    match desc with
    | .text _ => none
    | .categoryFilter c => some c

/-- A `{ id }` projection used by the `deleted` lists. -/
structure IdOnly where
  id : String
deriving Repr, DecidableEq

/-- Element of `texts.newAndUpdated`: the spread `{...text, updated}`. -/
structure TextDeltaEntry where
  id : String
  index : Int
  title : String
  description : Option String
  updated : Bool
deriving Repr, DecidableEq

/-- The nested `categories: { deleted, new }` object of a category-filter
entry. -/
structure CategoriesDelta where
  deleted : List String
  new : List String
deriving Repr, DecidableEq

/-- Element of `categoryFilters.newAndUpdated`: the spread
`{...newFilter, categories: {deleted, new}, updated}` (the input's
`categories` list is replaced by the nested delta; the return type allows
`categories: ... | null`). -/
structure CategoryFilterDeltaEntry where
  id : String
  index : Int
  title : String
  description : Option String
  categories : Option CategoriesDelta
  updated : Bool
deriving Repr, DecidableEq

/-- One dimension of the delta: `{ deleted, newAndUpdated }`. -/
structure DimensionDelta (α : Type) where
  deleted : List IdOnly
  newAndUpdated : List α
deriving Repr, DecidableEq

/-- The return shape of `getMetadataDelta`.  `tagline`/`accentColor` being
`none` models the key being absent/`undefined` in the returned object. -/
structure MetadataDelta where
  tagline : Option String
  accentColor : Option String
  texts : DimensionDelta TextDeltaEntry
  categoryFilters : DimensionDelta CategoryFilterDeltaEntry
deriving Repr, DecidableEq

/-- `deletedTexts`: old texts whose id has no match among the new texts. -/
def deletedTexts (oldTexts newTexts : List DbBoardTextDescription) :
    List DbBoardTextDescription :=
  oldTexts.filter fun oldText =>
    !(newTexts.any fun newText => newText.id == oldText.id)

/-- `newAndUpdatedTexts`: every new text, spread with its `updated` flag. -/
def newAndUpdatedTexts (oldTexts newTexts : List DbBoardTextDescription) :
    List TextDeltaEntry :=
  newTexts.map fun text =>
    { id := text.id, index := text.index, title := text.title,
      description := text.description,
      updated := oldTexts.any fun oldText => oldText.id == text.id }

/-- `deletedFilters`: old category filters whose id has no match among the
new category filters. -/
def deletedFilters (oldCategoryFilters newCategoryFilters :
    List DbBoardCategoryDescription) : List DbBoardCategoryDescription :=
  oldCategoryFilters.filter fun oldFilter =>
    !(newCategoryFilters.any fun newFilter => newFilter.id == oldFilter.id)

/-- `deletedCategories`: categories of the matched old filter with no
case-insensitive match in the new filter; `[]` when there is no old
filter. -/
def deletedCategories (oldFilter : Option DbBoardCategoryDescription)
    (newFilter : DbBoardCategoryDescription) : List String :=
  match oldFilter with
  | some oldFilter =>
      oldFilter.categories.filter fun oldCategory =>
        !(newFilter.categories.any fun newCategory =>
          oldCategory.toLower == newCategory.toLower)
  | none => []

/-- `newCategories`: categories of the new filter with no case-insensitive
match in the matched old filter; all of them when there is no old
filter. -/
def newCategories (oldFilter : Option DbBoardCategoryDescription)
    (newFilter : DbBoardCategoryDescription) : List String :=
  match oldFilter with
  | some oldFilter =>
      newFilter.categories.filter fun newCategory =>
        !(oldFilter.categories.any fun oldCategory =>
          oldCategory.toLower == newCategory.toLower)
  | none => newFilter.categories

/-- One element of `newAndUpdatedFilters`: look up the old filter by id,
compute the nested category delta, and spread the new filter with
`categories` and `updated`. -/
def newAndUpdatedFilterEntry
    (oldCategoryFilters : List DbBoardCategoryDescription)
    (newFilter : DbBoardCategoryDescription) : CategoryFilterDeltaEntry :=
  let oldFilter := oldCategoryFilters.find? fun oldFilter =>
    oldFilter.id == newFilter.id
  { id := newFilter.id, index := newFilter.index, title := newFilter.title,
    description := newFilter.description,
    categories := some
      { deleted := deletedCategories oldFilter newFilter,
        new := newCategories oldFilter newFilter },
    updated := oldFilter.isSome }

/-- `getMetadataDelta`.  Returns `none` exactly when the TypeScript source
throws, i.e. when either input's `settings` object is missing (the source
dereferences `settings!` unconditionally when building the result). -/
def getMetadataDelta (oldMetadata newMetadata : BoardByExternalId) :
    Option MetadataDelta :=
  let oldTexts := filterTexts oldMetadata.descriptions
  let oldCategoryFilters := filterCategoryFilters oldMetadata.descriptions
  let newTexts := filterTexts newMetadata.descriptions
  let newCategoryFilters := filterCategoryFilters newMetadata.descriptions
  match oldMetadata.settings, newMetadata.settings with
  | some oldSettings, some newSettings =>
      some
        { accentColor :=
            if oldSettings.accentColor != newSettings.accentColor then
              newSettings.accentColor
            else none,
          tagline :=
            if oldMetadata.tagline != newMetadata.tagline then
              newMetadata.tagline
            else none,
          texts :=
            { deleted := (deletedTexts oldTexts newTexts).map
                fun text => { id := text.id },
              newAndUpdated := newAndUpdatedTexts oldTexts newTexts },
          categoryFilters :=
            { deleted := (deletedFilters oldCategoryFilters
                newCategoryFilters).map fun filter => { id := filter.id },
              newAndUpdated := newCategoryFilters.map
                (newAndUpdatedFilterEntry oldCategoryFilters) } }
  | _, _ => none

/-- A cache operation performed against the `BOARD_METADATA` hash:
`cache().hGet(CacheKeys.BOARD_METADATA, field)` or
`cache().hSet(CacheKeys.BOARD_METADATA, field, value)`. -/
inductive CacheOp where
  | hGet (field : String)
  | hSet (field : String) (value : String)
deriving Repr, DecidableEq

/-- The external collaborators of `getBoardMetadataByExternalId`, modelled
abstractly: the cache's current contents, the storage query
`getBoardByExternalId`, `JSON.parse`, the two response-shaping functions
from `utils/response-utils`, the object spread that merges their results
into `finalMetadata`, and `fast-json-stable-stringify`.  Rendered metadata
values are represented abstractly by `String`. -/
structure BoardsEnv where
  cacheGet : String → Option String
  getBoardByExternalId : Option String → String → Option BoardByExternalId
  jsonParse : String → String
  processBoardsSummary : BoardByExternalId → Bool → Bool → String
  processBoardMetadata : BoardByExternalId → Bool → Bool → String
  spreadMerge : String → String → String
  stringify : String → String

/-- JavaScript truthiness of an optional string: `undefined` and the
empty string are falsy, every other string is truthy.  This is the
reading of the source's `!firebaseId` / `!!firebaseId` / `if
(cachedBoard)` guards. -/
def truthy (s : Option String) : Bool :=
  match s with
  | none => false
  | some s => !(s == "")

/-- `getBoardMetadataByExternalId`: when `firebaseId` is falsy (absent or
the empty string), consult the board-metadata cache first and return the
parsed hit when the cached value is truthy; otherwise (or on a miss,
including an empty-string cached value) fetch from storage, render with
`isLoggedIn = !!firebaseId`, and — again only when `firebaseId` is falsy —
write the rendered metadata back to the cache.  The second component of
the result is the sequence of cache operations performed. -/
def getBoardMetadataByExternalId (env : BoardsEnv)
    (boardExternalId : String) (firebaseId : Option String)
    (hasBoardAccess : Bool) : Option String × List CacheOp :=
  let readOps :=
    if !(truthy firebaseId) then [CacheOp.hGet boardExternalId] else []
  let cachedBoard :=
    if !(truthy firebaseId) then env.cacheGet boardExternalId else none
  if truthy cachedBoard then
    (cachedBoard.map env.jsonParse, readOps)
  else
    match env.getBoardByExternalId firebaseId boardExternalId with
    | none => (none, readOps)
    | some board =>
        let boardSummary :=
          env.processBoardsSummary board (truthy firebaseId) hasBoardAccess
        let boardMetadata :=
          env.processBoardMetadata board (truthy firebaseId) hasBoardAccess
        let finalMetadata := env.spreadMerge boardSummary boardMetadata
        let writeOps :=
          if !(truthy firebaseId) then
            [CacheOp.hSet boardExternalId (env.stringify finalMetadata)]
          else []
        (some finalMetadata, readOps ++ writeOps)

/-! ### Sample inputs used by the witness theorems -/

/-- Old settings of the sample board. -/
def sampleOldSettings : BoardSettings := { accentColor := some "#ff5252" }

/-- New settings of the sample board (accent color changed). -/
def sampleNewSettings : BoardSettings := { accentColor := some "#2ecc71" }

/-- A concrete old metadata snapshot: two texts and one category filter. -/
def sampleOldMetadata : BoardByExternalId :=
  { tagline := some "hello world",
    settings := some sampleOldSettings,
    descriptions := some
      [ .text { id := "t0", index := 0, title := "intro",
                description := some "welcome" },
        .text { id := "t1", index := 1, title := "rules",
                description := some "be nice" },
        .categoryFilter { id := "f1", index := 2, title := "topics",
                          description := none,
                          categories := ["Blood", "gone"] } ] }

/-- A concrete new metadata snapshot: text `t0` removed, `t2` added,
filter `f1` kept with recased/changed categories, filter `f2` added. -/
def sampleNewMetadata : BoardByExternalId :=
  { tagline := some "hello world",
    settings := some sampleNewSettings,
    descriptions := some
      [ .text { id := "t1", index := 0, title := "rules",
                description := some "be kind" },
        .text { id := "t2", index := 1, title := "faq",
                description := none },
        .categoryFilter { id := "f1", index := 2, title := "topics",
                          description := none,
                          categories := ["blood", "odd"] },
        .categoryFilter { id := "f2", index := 3, title := "fresh",
                          description := none,
                          categories := ["odd", "even"] } ] }

/-! ### Shared helper lemmas -/

/-- The result of `getMetadataDelta` spelled out, available whenever both
inputs carry a `settings` object. -/
theorem getMetadataDelta_eq_some (o n : BoardByExternalId)
    (os ns : BoardSettings) (ho : o.settings = some os)
    (hn : n.settings = some ns) :
    getMetadataDelta o n = some
      { tagline :=
          if o.tagline != n.tagline then n.tagline else none,
        accentColor :=
          if os.accentColor != ns.accentColor then ns.accentColor else none,
        texts :=
          { deleted := (deletedTexts (filterTexts o.descriptions)
                (filterTexts n.descriptions)).map fun text => { id := text.id },
            newAndUpdated := newAndUpdatedTexts (filterTexts o.descriptions)
              (filterTexts n.descriptions) },
        categoryFilters :=
          { deleted := (deletedFilters (filterCategoryFilters o.descriptions)
                (filterCategoryFilters n.descriptions)).map
                  fun filter => { id := filter.id },
            newAndUpdated := (filterCategoryFilters n.descriptions).map
              (newAndUpdatedFilterEntry
                (filterCategoryFilters o.descriptions)) } } := by
  unfold getMetadataDelta
  rw [ho, hn]

/-- Bridge between the source's boolean `!list.any (...)` tests and their
propositional reading. -/
theorem bnot_any_eq_decide {α : Type} (q : α → Bool) (p : α → Prop)
    [DecidablePred p] (h : ∀ x, q x = true ↔ p x) (l : List α) :
    (!(l.any q)) = decide (¬ ∃ x ∈ l, p x) := by
  rw [List.any_eq, ← decide_not, decide_eq_decide]
  simp only [h]

/-! ### C1: scalar fields appear in the delta only on strict change -/

/-- Formalisation of C1's property over a produced delta: each scalar
field (`tagline`, `accentColor`) is present only if the old value differs
from the new value, in which case it carries the new value; equal values
leave the field absent. -/
def ScalarOnlyOnChange (o n : BoardByExternalId) (os ns : BoardSettings)
    (d : MetadataDelta) : Prop :=
  (∀ v, d.accentColor = some v →
    os.accentColor ≠ ns.accentColor ∧ ns.accentColor = some v) ∧
  (os.accentColor = ns.accentColor → d.accentColor = none) ∧
  (∀ v, d.tagline = some v → o.tagline ≠ n.tagline ∧ n.tagline = some v) ∧
  (o.tagline = n.tagline → d.tagline = none)

/-- C1: for every pair of metadata inputs (with their `settings` objects
present, without which the source throws), the scalar fields `tagline` and
`accentColor` are present in the output delta only if the old value
differs from the new value, in which case they carry the new value; equal
values leave the field absent, never emitted as a no-op entry. -/
theorem getMetadataDelta_scalar_only_on_change (o n : BoardByExternalId)
    (os ns : BoardSettings) (ho : o.settings = some os)
    (hn : n.settings = some ns) :
    ∃ d, getMetadataDelta o n = some d ∧ ScalarOnlyOnChange o n os ns d := by
  refine ⟨_, getMetadataDelta_eq_some o n os ns ho hn, ?_, ?_, ?_, ?_⟩
  · intro v hv
    by_cases h : os.accentColor = ns.accentColor
    · simp [h] at hv
    · simpa [h] using hv
  · intro h
    simp [h]
  · intro v hv
    by_cases h : o.tagline = n.tagline
    · simp [h] at hv
    · simpa [h] using hv
  · intro h
    simp [h]

/-- C1 witness: the scalar property evaluated on the concrete sample
snapshots (whose settings are present). -/
theorem getMetadataDelta_scalar_only_on_change_witness :
    sampleOldMetadata.settings = some sampleOldSettings ∧
    sampleNewMetadata.settings = some sampleNewSettings ∧
    ∃ d, getMetadataDelta sampleOldMetadata sampleNewMetadata = some d ∧
      ScalarOnlyOnChange sampleOldMetadata sampleNewMetadata
        sampleOldSettings sampleNewSettings d :=
  ⟨rfl, rfl, getMetadataDelta_scalar_only_on_change sampleOldMetadata
    sampleNewMetadata sampleOldSettings sampleNewSettings rfl rfl⟩

/-! ### C2: `newAndUpdated` mirrors the new state -/

/-- Formalisation of C2's property over a produced delta: for both
dimensions, `newAndUpdated` projects back to exactly the new state's items
in the new state's order with their fields retained, and each entry is
tagged `updated = true` iff an item with the same id existed in the old
state.  (For category filters the retained fields are the scalar ones; the
input's `categories` list is replaced by the nested delta, which is the
subject of C10.) -/
def NewAndUpdatedMirrorsNew (o n : BoardByExternalId)
    (d : MetadataDelta) : Prop :=
  d.texts.newAndUpdated.map
      (fun e => DbBoardTextDescription.mk e.id e.index e.title e.description)
    = filterTexts n.descriptions ∧
  (∀ e ∈ d.texts.newAndUpdated,
    (e.updated = true ↔ ∃ t ∈ filterTexts o.descriptions, t.id = e.id)) ∧
  d.categoryFilters.newAndUpdated.map
      (fun e => (e.id, e.index, e.title, e.description))
    = (filterCategoryFilters n.descriptions).map
        (fun f => (f.id, f.index, f.title, f.description)) ∧
  (∀ e ∈ d.categoryFilters.newAndUpdated,
    (e.updated = true ↔
      ∃ f ∈ filterCategoryFilters o.descriptions, f.id = e.id))

/-- C2: for every pair of metadata inputs (settings present), the
`newAndUpdated` sequences contain exactly the new state's items, in the
new state's iteration order, with their fields retained, tagged
`updated = true` iff an item with the same id existed in the old state. -/
theorem getMetadataDelta_newAndUpdated_mirrors_new (o n : BoardByExternalId)
    (os ns : BoardSettings) (ho : o.settings = some os)
    (hn : n.settings = some ns) :
    ∃ d, getMetadataDelta o n = some d ∧ NewAndUpdatedMirrorsNew o n d := by
  refine ⟨_, getMetadataDelta_eq_some o n os ns ho hn, ?_, ?_, ?_, ?_⟩
  · simp only [newAndUpdatedTexts, List.map_map]
    exact List.map_id _
  · intro e he
    simp only [newAndUpdatedTexts, List.mem_map] at he
    obtain ⟨t, ht, rfl⟩ := he
    simp [List.any_eq_true]
  · simp only [newAndUpdatedFilterEntry, List.map_map]
    rfl
  · intro e he
    simp only [List.mem_map] at he
    obtain ⟨f, hf, rfl⟩ := he
    simp [newAndUpdatedFilterEntry, List.find?_isSome]

/-- C2 witness: the mirror property evaluated on the concrete sample
snapshots. -/
theorem getMetadataDelta_newAndUpdated_mirrors_new_witness :
    sampleOldMetadata.settings = some sampleOldSettings ∧
    sampleNewMetadata.settings = some sampleNewSettings ∧
    ∃ d, getMetadataDelta sampleOldMetadata sampleNewMetadata = some d ∧
      NewAndUpdatedMirrorsNew sampleOldMetadata sampleNewMetadata d :=
  ⟨rfl, rfl, getMetadataDelta_newAndUpdated_mirrors_new sampleOldMetadata
    sampleNewMetadata sampleOldSettings sampleNewSettings rfl rfl⟩

/-! ### C3: `deleted` lists are the old-only ids, projected to `{id}` -/

/-- Formalisation of C3's property over a produced delta: for both
dimensions, `deleted` consists exactly of the old state's items whose id
has no occurrence in the new state, in the old state's order, each
projected to an object holding only the id. -/
def DeletedAreOldOnly (o n : BoardByExternalId) (d : MetadataDelta) : Prop :=
  d.texts.deleted =
    ((filterTexts o.descriptions).filter fun t =>
        decide (¬ ∃ nt ∈ filterTexts n.descriptions, nt.id = t.id)).map
      (fun t => { id := t.id }) ∧
  d.categoryFilters.deleted =
    ((filterCategoryFilters o.descriptions).filter fun f =>
        decide (¬ ∃ nf ∈ filterCategoryFilters n.descriptions,
          nf.id = f.id)).map
      (fun f => { id := f.id })

/-- C3: for every pair of metadata inputs (settings present), the
`deleted` sequences consist exactly of the items whose id occurs in the
old state but not in the new state, projected to `{id}` only. -/
theorem getMetadataDelta_deleted_are_old_only (o n : BoardByExternalId)
    (os ns : BoardSettings) (ho : o.settings = some os)
    (hn : n.settings = some ns) :
    ∃ d, getMetadataDelta o n = some d ∧ DeletedAreOldOnly o n d := by
  refine ⟨_, getMetadataDelta_eq_some o n os ns ho hn, ?_, ?_⟩
  · show (deletedTexts _ _).map _ = _
    unfold deletedTexts
    rw [List.filter_congr fun t _ =>
      bnot_any_eq_decide _ (fun nt => nt.id = t.id) (fun nt => by simp) _]
  · show (deletedFilters _ _).map _ = _
    unfold deletedFilters
    rw [List.filter_congr fun f _ =>
      bnot_any_eq_decide _ (fun nf => nf.id = f.id) (fun nf => by simp) _]

/-- C3 witness: the deleted-list property evaluated on the concrete sample
snapshots. -/
theorem getMetadataDelta_deleted_are_old_only_witness :
    sampleOldMetadata.settings = some sampleOldSettings ∧
    sampleNewMetadata.settings = some sampleNewSettings ∧
    ∃ d, getMetadataDelta sampleOldMetadata sampleNewMetadata = some d ∧
      DeletedAreOldOnly sampleOldMetadata sampleNewMetadata d :=
  ⟨rfl, rfl, getMetadataDelta_deleted_are_old_only sampleOldMetadata
    sampleNewMetadata sampleOldSettings sampleNewSettings rfl rfl⟩

/-- `newAndUpdatedFilterEntry` with its `let` binding spelled out. -/
theorem newAndUpdatedFilterEntry_eq
    (oldCategoryFilters : List DbBoardCategoryDescription)
    (newFilter : DbBoardCategoryDescription) :
    newAndUpdatedFilterEntry oldCategoryFilters newFilter =
      { id := newFilter.id, index := newFilter.index,
        title := newFilter.title, description := newFilter.description,
        categories := some
          { deleted := deletedCategories
              (oldCategoryFilters.find? fun g => g.id == newFilter.id)
              newFilter,
            new := newCategories
              (oldCategoryFilters.find? fun g => g.id == newFilter.id)
              newFilter },
        updated := (oldCategoryFilters.find?
          fun g => g.id == newFilter.id).isSome } := rfl

/-- Indexing into the mapped `newAndUpdated` filter entries. -/
theorem filters_entry_get
    (oldCategoryFilters newCategoryFilters : List DbBoardCategoryDescription)
    (i : Nat) (hi : i < newCategoryFilters.length)
    (hj : i < (newCategoryFilters.map
      (newAndUpdatedFilterEntry oldCategoryFilters)).length) :
    (newCategoryFilters.map
        (newAndUpdatedFilterEntry oldCategoryFilters)).get ⟨i, hj⟩ =
      newAndUpdatedFilterEntry oldCategoryFilters
        (newCategoryFilters.get ⟨i, hi⟩) := by
  simp

/-! ### C4: a filter absent from the old state is entirely new -/

/-- Formalisation of C4's property over a produced delta: for each new
category filter whose id has no match in the old state, the nested delta
classifies every category of the new filter as new, has an empty deleted
list, and the section is tagged `updated = false`. -/
def AbsentFilterAllNew (o n : BoardByExternalId) (d : MetadataDelta) : Prop :=
  ∀ (i : Nat) (hi : i < (filterCategoryFilters n.descriptions).length)
    (hj : i < d.categoryFilters.newAndUpdated.length),
    (¬ ∃ g ∈ filterCategoryFilters o.descriptions,
        g.id = ((filterCategoryFilters n.descriptions).get ⟨i, hi⟩).id) →
    (d.categoryFilters.newAndUpdated.get ⟨i, hj⟩).categories =
      some { deleted := [],
             new := ((filterCategoryFilters n.descriptions).get
               ⟨i, hi⟩).categories } ∧
    (d.categoryFilters.newAndUpdated.get ⟨i, hj⟩).updated = false

/-- C4: for every category-filter section present in the new state whose
id is absent from the old state, the nested category delta classifies
every category of the new filter as new, has an empty deleted list, and
the section is tagged `updated = false`. -/
theorem getMetadataDelta_absent_filter_all_new (o n : BoardByExternalId)
    (os ns : BoardSettings) (ho : o.settings = some os)
    (hn : n.settings = some ns) :
    ∃ d, getMetadataDelta o n = some d ∧ AbsentFilterAllNew o n d := by
  refine ⟨_, getMetadataDelta_eq_some o n os ns ho hn, ?_⟩
  intro i hi hj habs
  rw [filters_entry_get _ _ i hi hj, newAndUpdatedFilterEntry_eq]
  have hfind : (filterCategoryFilters o.descriptions).find?
      (fun g => g.id ==
        ((filterCategoryFilters n.descriptions).get ⟨i, hi⟩).id) = none := by
    rw [List.find?_eq_none]
    intro g hg hbeq
    exact habs ⟨g, hg, by simpa using hbeq⟩
  simp only [List.get_eq_getElem] at hfind ⊢
  rw [hfind]
  simp [deletedCategories, newCategories]

/-- C4 witness: the absent-filter property evaluated on the concrete
sample snapshots (filter `f2` is new there). -/
theorem getMetadataDelta_absent_filter_all_new_witness :
    sampleOldMetadata.settings = some sampleOldSettings ∧
    sampleNewMetadata.settings = some sampleNewSettings ∧
    ∃ d, getMetadataDelta sampleOldMetadata sampleNewMetadata = some d ∧
      AbsentFilterAllNew sampleOldMetadata sampleNewMetadata d :=
  ⟨rfl, rfl, getMetadataDelta_absent_filter_all_new sampleOldMetadata
    sampleNewMetadata sampleOldSettings sampleNewSettings rfl rfl⟩

/-! ### C5: nested category comparison is case-insensitive -/

/-- Formalisation of C5's property over a produced delta: for each new
category filter whose id is matched in the old state (by the source's
first-match lookup), the nested deleted list holds the old filter's
categories with no case-insensitive match in the new filter, the nested
new list holds the new filter's categories with no case-insensitive match
in the old filter, and categories that differ only by letter case appear
in neither list. -/
def NestedCaseInsensitive (o n : BoardByExternalId)
    (d : MetadataDelta) : Prop :=
  ∀ (i : Nat) (hi : i < (filterCategoryFilters n.descriptions).length)
    (hj : i < d.categoryFilters.newAndUpdated.length)
    (g : DbBoardCategoryDescription),
    (filterCategoryFilters o.descriptions).find?
        (fun oldFilter => oldFilter.id ==
          ((filterCategoryFilters n.descriptions).get ⟨i, hi⟩).id)
      = some g →
    ∃ cd, (d.categoryFilters.newAndUpdated.get ⟨i, hj⟩).categories
        = some cd ∧
      cd.deleted = g.categories.filter (fun oldCategory =>
        decide (¬ ∃ newCategory ∈
          ((filterCategoryFilters n.descriptions).get ⟨i, hi⟩).categories,
          oldCategory.toLower = newCategory.toLower)) ∧
      cd.new = ((filterCategoryFilters n.descriptions).get
          ⟨i, hi⟩).categories.filter (fun newCategory =>
        decide (¬ ∃ oldCategory ∈ g.categories,
          oldCategory.toLower = newCategory.toLower)) ∧
      ∀ oldCategory ∈ g.categories,
        ∀ newCategory ∈
          ((filterCategoryFilters n.descriptions).get ⟨i, hi⟩).categories,
        oldCategory.toLower = newCategory.toLower →
          oldCategory ∉ cd.deleted ∧ newCategory ∉ cd.new

/-- C5: for every category-filter section whose id exists in both states,
nested category membership is compared case-insensitively; categories
identical except for case appear in neither nested list. -/
theorem getMetadataDelta_nested_case_insensitive (o n : BoardByExternalId)
    (os ns : BoardSettings) (ho : o.settings = some os)
    (hn : n.settings = some ns) :
    ∃ d, getMetadataDelta o n = some d ∧ NestedCaseInsensitive o n d := by
  refine ⟨_, getMetadataDelta_eq_some o n os ns ho hn, ?_⟩
  intro i hi hj g hfind
  rw [filters_entry_get _ _ i hi hj, newAndUpdatedFilterEntry_eq]
  simp only [List.get_eq_getElem] at hfind ⊢
  rw [hfind]
  refine ⟨_, rfl, ?_, ?_, ?_⟩
  · show deletedCategories (some g) _ = _
    simp only [deletedCategories]
    rw [List.filter_congr fun oc _ => bnot_any_eq_decide _
      (fun nc => oc.toLower = nc.toLower) (fun nc => by simp) _]
  · show newCategories (some g) _ = _
    simp only [newCategories]
    rw [List.filter_congr fun nc _ => bnot_any_eq_decide _
      (fun oc => oc.toLower = nc.toLower) (fun oc => by simp) _]
  · intro oc hoc nc hnc hlow
    constructor
    · intro hmem
      simp only [deletedCategories, List.mem_filter] at hmem
      have hany : ((filterCategoryFilters n.descriptions)[i]).categories.any
          (fun newCategory => oc.toLower == newCategory.toLower) = true :=
        List.any_eq_true.mpr ⟨nc, hnc, by simp [hlow]⟩
      rw [hany] at hmem
      exact absurd hmem.2 (by simp)
    · intro hmem
      simp only [newCategories, List.mem_filter] at hmem
      have hany : g.categories.any
          (fun oldCategory => oldCategory.toLower == nc.toLower) = true :=
        List.any_eq_true.mpr ⟨oc, hoc, by simp [hlow]⟩
      rw [hany] at hmem
      exact absurd hmem.2 (by simp)

/-- C5 witness: the case-insensitive comparison property evaluated on the
concrete sample snapshots (`"Blood"` vs `"blood"` in filter `f1`). -/
theorem getMetadataDelta_nested_case_insensitive_witness :
    sampleOldMetadata.settings = some sampleOldSettings ∧
    sampleNewMetadata.settings = some sampleNewSettings ∧
    ∃ d, getMetadataDelta sampleOldMetadata sampleNewMetadata = some d ∧
      NestedCaseInsensitive sampleOldMetadata sampleNewMetadata d :=
  ⟨rfl, rfl, getMetadataDelta_nested_case_insensitive sampleOldMetadata
    sampleNewMetadata sampleOldSettings sampleNewSettings rfl rfl⟩

/-! ### C6: `deleted` and `newAndUpdated` are disjoint -/

/-- Formalisation of C6's property over a produced delta: no id appears
both among the deleted entries and among the `newAndUpdated` entries of a
dimension, and within every nested category delta no category string
appears (case-insensitively) in both the deleted and the new list. -/
def DeltaDisjoint (d : MetadataDelta) : Prop :=
  (∀ x ∈ d.texts.deleted, ∀ e ∈ d.texts.newAndUpdated, x.id ≠ e.id) ∧
  (∀ x ∈ d.categoryFilters.deleted,
    ∀ e ∈ d.categoryFilters.newAndUpdated, x.id ≠ e.id) ∧
  (∀ e ∈ d.categoryFilters.newAndUpdated, ∀ cd, e.categories = some cd →
    ∀ c ∈ cd.deleted, ∀ c2 ∈ cd.new, c.toLower ≠ c2.toLower)

/-- C6: for every pair of metadata inputs (settings present), the deleted
and `newAndUpdated` collections of each dimension are disjoint by id, and
every nested category delta's deleted and new lists are disjoint even up
to letter case. -/
theorem getMetadataDelta_disjoint (o n : BoardByExternalId)
    (os ns : BoardSettings) (ho : o.settings = some os)
    (hn : n.settings = some ns) :
    ∃ d, getMetadataDelta o n = some d ∧ DeltaDisjoint d := by
  refine ⟨_, getMetadataDelta_eq_some o n os ns ho hn, ?_, ?_, ?_⟩
  · intro x hx e he
    simp only [List.mem_map] at hx
    obtain ⟨t, ht, rfl⟩ := hx
    simp only [newAndUpdatedTexts, List.mem_map] at he
    obtain ⟨nt, hnt, rfl⟩ := he
    simp only [deletedTexts, List.mem_filter] at ht
    intro hid
    have hany : (filterTexts n.descriptions).any
        (fun newText => newText.id == t.id) = true :=
      List.any_eq_true.mpr ⟨nt, hnt, by simpa using hid.symm⟩
    rw [hany] at ht
    exact absurd ht.2 (by simp)
  · intro x hx e he
    simp only [List.mem_map] at hx
    obtain ⟨f, hf, rfl⟩ := hx
    simp only [List.mem_map] at he
    obtain ⟨nf, hnf, rfl⟩ := he
    simp only [deletedFilters, List.mem_filter] at hf
    intro hid
    have hany : (filterCategoryFilters n.descriptions).any
        (fun newFilter => newFilter.id == f.id) = true :=
      List.any_eq_true.mpr ⟨nf, hnf,
        by simpa [newAndUpdatedFilterEntry_eq] using hid.symm⟩
    rw [hany] at hf
    exact absurd hf.2 (by simp)
  · intro e he cd hcd c hc c2 hc2
    simp only [List.mem_map] at he
    obtain ⟨nf, hnf, rfl⟩ := he
    rw [newAndUpdatedFilterEntry_eq] at hcd
    obtain rfl := Option.some.inj hcd
    cases hfind : (filterCategoryFilters o.descriptions).find?
        (fun g => g.id == nf.id) with
    | none =>
        rw [hfind] at hc
        simp [deletedCategories] at hc
    | some g =>
        rw [hfind] at hc hc2
        simp only [deletedCategories, List.mem_filter] at hc
        simp only [newCategories, List.mem_filter] at hc2
        intro hlow
        have hany : nf.categories.any
            (fun newCategory => c.toLower == newCategory.toLower) = true :=
          List.any_eq_true.mpr ⟨c2, hc2.1, by simp [hlow]⟩
        rw [hany] at hc
        exact absurd hc.2 (by simp)

/-- C6 witness: disjointness evaluated on the concrete sample
snapshots. -/
theorem getMetadataDelta_disjoint_witness :
    sampleOldMetadata.settings = some sampleOldSettings ∧
    sampleNewMetadata.settings = some sampleNewSettings ∧
    ∃ d, getMetadataDelta sampleOldMetadata sampleNewMetadata = some d ∧
      DeltaDisjoint d :=
  ⟨rfl, rfl, getMetadataDelta_disjoint sampleOldMetadata
    sampleNewMetadata sampleOldSettings sampleNewSettings rfl rfl⟩

/-! ### C7: empty category sets in nested deltas -/

/-- Formalisation of C7's property over a produced delta: for each new
category filter matched in the old state, an empty old category set gives
an empty nested deleted list and a nested new list equal to all of the new
filter's categories, and an empty new category set gives an empty nested
new list and a nested deleted list equal to all of the old filter's
categories. -/
def EmptyNestedSides (o n : BoardByExternalId) (d : MetadataDelta) : Prop :=
  ∀ (i : Nat) (hi : i < (filterCategoryFilters n.descriptions).length)
    (hj : i < d.categoryFilters.newAndUpdated.length)
    (g : DbBoardCategoryDescription),
    (filterCategoryFilters o.descriptions).find?
        (fun oldFilter => oldFilter.id ==
          ((filterCategoryFilters n.descriptions).get ⟨i, hi⟩).id)
      = some g →
    ∃ cd, (d.categoryFilters.newAndUpdated.get ⟨i, hj⟩).categories
        = some cd ∧
      (g.categories = [] → cd.deleted = [] ∧
        cd.new = ((filterCategoryFilters n.descriptions).get
          ⟨i, hi⟩).categories) ∧
      (((filterCategoryFilters n.descriptions).get ⟨i, hi⟩).categories = []
        → cd.new = [] ∧ cd.deleted = g.categories)

/-- C7: for every category-filter section present in both states, if the
old filter's category set is empty the nested delta deletes nothing and
marks all new categories as new; if the new filter's category set is empty
the nested delta adds nothing and deletes all old categories. -/
theorem getMetadataDelta_empty_nested_sides (o n : BoardByExternalId)
    (os ns : BoardSettings) (ho : o.settings = some os)
    (hn : n.settings = some ns) :
    ∃ d, getMetadataDelta o n = some d ∧ EmptyNestedSides o n d := by
  refine ⟨_, getMetadataDelta_eq_some o n os ns ho hn, ?_⟩
  intro i hi hj g hfind
  rw [filters_entry_get _ _ i hi hj, newAndUpdatedFilterEntry_eq]
  simp only [List.get_eq_getElem] at hfind ⊢
  rw [hfind]
  refine ⟨_, rfl, ?_, ?_⟩
  · intro hg
    constructor
    · show deletedCategories (some g) _ = _
      simp [deletedCategories, hg]
    · show newCategories (some g) _ = _
      simp only [newCategories]
      rw [List.filter_eq_self.mpr]
      intro c _
      simp [hg]
  · intro hnf
    constructor
    · show newCategories (some g) _ = _
      simp [newCategories, hnf]
    · show deletedCategories (some g) _ = _
      simp only [deletedCategories]
      rw [List.filter_eq_self.mpr]
      intro c _
      simp [hnf]

/-- C7 witness: the empty-sides property evaluated on the concrete sample
snapshots. -/
theorem getMetadataDelta_empty_nested_sides_witness :
    sampleOldMetadata.settings = some sampleOldSettings ∧
    sampleNewMetadata.settings = some sampleNewSettings ∧
    ∃ d, getMetadataDelta sampleOldMetadata sampleNewMetadata = some d ∧
      EmptyNestedSides sampleOldMetadata sampleNewMetadata d :=
  ⟨rfl, rfl, getMetadataDelta_empty_nested_sides sampleOldMetadata
    sampleNewMetadata sampleOldSettings sampleNewSettings rfl rfl⟩

/-! ### C8: totality and defensive normalization -/

/-- C8 counterexample: `getMetadataDelta` is not total on partial inputs.
With `settings` absent from both snapshots (a legal
`Partial<BoardByExternalId>`), the source's `oldMetadata.settings!`
dereference throws a `TypeError`; in the embedding the result is `none`
instead of a delta, refuting the claim that malformed input — including a
missing settings object — never causes a failure. -/
theorem getMetadataDelta_missing_settings_errors :
    getMetadataDelta
      { tagline := none, settings := none, descriptions := none }
      { tagline := some "hi", settings := none, descriptions := some [] }
      = none := rfl

/-- Formalisation of the amended C8: a missing `descriptions` collection
normalizes to the empty list on both dimensions, and the computation
succeeds whenever both inputs carry a `settings` object. -/
def TotalGivenSettings (o n : BoardByExternalId) : Prop :=
  (∃ d, getMetadataDelta o n = some d) ∧
  filterTexts none = [] ∧ filterCategoryFilters none = []

/-- Amended C8: `getMetadataDelta` never fails provided both inputs carry
a `settings` object — missing or absent `descriptions` collections
normalize to the empty list — but a missing `settings` object on either
input makes the non-null `settings!` dereference throw. -/
theorem getMetadataDelta_total_given_settings (o n : BoardByExternalId)
    (os ns : BoardSettings) (ho : o.settings = some os)
    (hn : n.settings = some ns) : TotalGivenSettings o n :=
  ⟨⟨_, getMetadataDelta_eq_some o n os ns ho hn⟩, rfl, rfl⟩

/-- Amended C8 witness: totality evaluated on the concrete sample
snapshots. -/
theorem getMetadataDelta_total_given_settings_witness :
    sampleOldMetadata.settings = some sampleOldSettings ∧
    sampleNewMetadata.settings = some sampleNewSettings ∧
    TotalGivenSettings sampleOldMetadata sampleNewMetadata :=
  ⟨rfl, rfl, getMetadataDelta_total_given_settings sampleOldMetadata
    sampleNewMetadata sampleOldSettings sampleNewSettings rfl rfl⟩

/-! ### C10: nested casing tie-break and non-null `categories` -/

/-- Formalisation of C10's property over a produced delta: every
`newAndUpdated` category-filter entry carries a non-null `categories`
object (holding both a deleted and a new list), and for a filter matched
in the old state the nested deleted list only holds category strings taken
verbatim from the old filter while the nested new list only holds category
strings taken verbatim from the new filter. -/
def NestedCasingFromState (o n : BoardByExternalId)
    (d : MetadataDelta) : Prop :=
  (∀ e ∈ d.categoryFilters.newAndUpdated, e.categories.isSome = true) ∧
  ∀ (i : Nat) (hi : i < (filterCategoryFilters n.descriptions).length)
    (hj : i < d.categoryFilters.newAndUpdated.length)
    (g : DbBoardCategoryDescription),
    (filterCategoryFilters o.descriptions).find?
        (fun oldFilter => oldFilter.id ==
          ((filterCategoryFilters n.descriptions).get ⟨i, hi⟩).id)
      = some g →
    ∃ cd, (d.categoryFilters.newAndUpdated.get ⟨i, hj⟩).categories
        = some cd ∧
      (∀ c ∈ cd.deleted, c ∈ g.categories) ∧
      ∀ c ∈ cd.new,
        c ∈ ((filterCategoryFilters n.descriptions).get ⟨i, hi⟩).categories

/-- C10: nested deleted entries carry the old state's original category
casing and nested new entries carry the new state's original casing, and
every `newAndUpdated` category-filter entry has a non-null `categories`
object with both lists. -/
theorem getMetadataDelta_nested_casing_from_state (o n : BoardByExternalId)
    (os ns : BoardSettings) (ho : o.settings = some os)
    (hn : n.settings = some ns) :
    ∃ d, getMetadataDelta o n = some d ∧ NestedCasingFromState o n d := by
  refine ⟨_, getMetadataDelta_eq_some o n os ns ho hn, ?_, ?_⟩
  · intro e he
    simp only [List.mem_map] at he
    obtain ⟨nf, hnf, rfl⟩ := he
    rw [newAndUpdatedFilterEntry_eq]
    rfl
  · intro i hi hj g hfind
    rw [filters_entry_get _ _ i hi hj, newAndUpdatedFilterEntry_eq]
    simp only [List.get_eq_getElem] at hfind ⊢
    rw [hfind]
    refine ⟨_, rfl, ?_, ?_⟩
    · intro c hc
      simp only [deletedCategories, List.mem_filter] at hc
      exact hc.1
    · intro c hc
      simp only [newCategories, List.mem_filter] at hc
      exact hc.1

/-- C10 witness: the casing tie-break property evaluated on the concrete
sample snapshots. -/
theorem getMetadataDelta_nested_casing_from_state_witness :
    sampleOldMetadata.settings = some sampleOldSettings ∧
    sampleNewMetadata.settings = some sampleNewSettings ∧
    ∃ d, getMetadataDelta sampleOldMetadata sampleNewMetadata = some d ∧
      NestedCasingFromState sampleOldMetadata sampleNewMetadata d :=
  ⟨rfl, rfl, getMetadataDelta_nested_casing_from_state sampleOldMetadata
    sampleNewMetadata sampleOldSettings sampleNewSettings rfl rfl⟩

/-! ### C9: the cache is bypassed for authenticated callers -/

/-- A concrete collaborator environment: an empty cache, a storage fetch
that always finds the sample board, and rendering collaborators returning
fixed strings. -/
def sampleEnv : BoardsEnv :=
  { cacheGet := fun _ => none,
    getBoardByExternalId := fun _ _ => some sampleOldMetadata,
    jsonParse := fun s => s,
    processBoardsSummary := fun _ _ _ => "summary",
    processBoardMetadata := fun _ _ _ => "metadata",
    spreadMerge := fun a b => a ++ "|" ++ b,
    stringify := fun s => s }

/-- C9 counterexample: a call that does carry a `firebaseId` — the empty
string, which is present but JS-falsy — still reads the cache (`hGet`)
and writes it back (`hSet`), because the source gates the cache on the
truthiness test `!firebaseId`, not on presence.  This refutes the claim
that the cache is neither consulted nor updated for every call with
`firebaseId` present. -/
theorem getBoardMetadata_empty_firebaseId_uses_cache :
    (getBoardMetadataByExternalId sampleEnv "board1" (some "") true).snd =
      [CacheOp.hGet "board1",
       CacheOp.hSet "board1" "summary|metadata"] := rfl

/-- Amended C9: the board-metadata cache is consulted and updated only
when the call carries no truthy `firebaseId`; for every call with a
non-empty `firebaseId` the cache is neither consulted nor updated and the
result is computed from the storage fetch alone (rendered by the
response-shaping collaborators with `isLoggedIn = true`).  A call whose
`firebaseId` is the empty string is treated like an anonymous call. -/
theorem getBoardMetadata_cache_bypassed_when_authenticated
    (env : BoardsEnv) (boardExternalId firebaseId : String)
    (hasBoardAccess : Bool) (hfid : firebaseId ≠ "") :
    getBoardMetadataByExternalId env boardExternalId (some firebaseId)
        hasBoardAccess =
      ((env.getBoardByExternalId (some firebaseId) boardExternalId).map
        fun board => env.spreadMerge
          (env.processBoardsSummary board true hasBoardAccess)
          (env.processBoardMetadata board true hasBoardAccess), []) := by
  have hb : (firebaseId == "") = false := by simp [hfid]
  cases h : env.getBoardByExternalId (some firebaseId) boardExternalId <;>
    simp [getBoardMetadataByExternalId, h, truthy, hfid, hb]

/-- Amended C9 witness: the cache-bypass property evaluated at the
concrete environment and the non-empty identity `"user1"`. -/
theorem getBoardMetadata_cache_bypassed_when_authenticated_witness :
    ("user1" : String) ≠ "" ∧
    getBoardMetadataByExternalId sampleEnv "board1" (some "user1") true =
      ((sampleEnv.getBoardByExternalId (some "user1") "board1").map
        fun board => sampleEnv.spreadMerge
          (sampleEnv.processBoardsSummary board true true)
          (sampleEnv.processBoardMetadata board true true), []) :=
  ⟨by decide, getBoardMetadata_cache_bypassed_when_authenticated
    sampleEnv "board1" "user1" true (by decide)⟩
